import Mathlib

/-!
Shallow embedding of `app.py` of the meeting-notes summarizer web application,
together with proofs about the claims of its specification.

Conventions of the embedding:
* Python strings are Lean `String`s; character-level work happens on `List Char`.
* Whitespace is modelled as the ASCII whitespace characters (the application only
  handles ASCII control whitespace in the places where it matters).
* Fallible Python code (raising) is modelled with `Except String`.
* External effects (the SMTP exchange, file saving) are modelled as event traces;
  external services (the Groq API, the filesystem contents, werkzeug's
  `secure_filename`) are parameters of the embedded handlers.
-/

namespace MeetingApp

deriving instance DecidableEq for Except

/-- Whitespace as recognized by Python's `str.strip` and the regex class `\s`,
restricted to the ASCII range. -/
def pyIsSpace (c : Char) : Bool :=
  c == ' ' || c == '\t' || c == '\n' || c == '\r' || c == '\x0b' || c == '\x0c'

/-- Python `str.strip()`: drop leading and trailing whitespace characters. -/
def pyStrip (l : List Char) : List Char :=
  ((l.dropWhile pyIsSpace).reverse.dropWhile pyIsSpace).reverse

/-- `str.strip()` at the `String` level. -/
def pyStripS (s : String) : String := String.mk (pyStrip s.toList)

mutual
/-- Accumulating a token for Python's `re.split(r"[...]+", s)`: a delimiter
character ends the current token and a whole run of delimiters is skipped before
the next token starts. -/
def splitRunsTok (delims : List Char) : List Char → List Char → List (List Char)
  | [], acc => [acc.reverse]
  | c :: rest, acc =>
    if c ∈ delims then acc.reverse :: splitRunsSkip delims rest
    else splitRunsTok delims rest (c :: acc)

/-- Skipping the remainder of a run of delimiter characters; reaching the end of
the input here yields the trailing empty token that `re.split` produces. -/
def splitRunsSkip (delims : List Char) : List Char → List (List Char)
  | [] => [[]]
  | c :: rest =>
    if c ∈ delims then splitRunsSkip delims rest
    else splitRunsTok delims rest [c]
end

/-- Python's `re.split(r"[D]+", s)` for a character class `D`: split `s` at each
maximal run of delimiter characters. -/
def splitRuns (delims : List Char) (l : List Char) : List (List Char) :=
  splitRunsTok delims l []

/-- The delimiter class `[,\n;\r]` of `parse_recipients` (src/app.py line 82). -/
def recipientDelims : List Char := [',', '\n', ';', '\r']

/-- A character of the class `[^@\s]` of `EMAIL_REGEX` (src/app.py line 46). -/
def emailChar (c : Char) : Bool := c != '@' && !pyIsSpace c

/-- `EMAIL_REGEX.match(t)` viewed as a Boolean: the anchored regular expression
`^[^@\s]+@[^@\s]+\.[^@\s]+$` matches `t`.  Since the classes exclude `@`, the
`@` of the pattern must match the first (and only) `@` of `t`; the rest of the
string must consist of `[^@\s]` characters and contain a dot at an interior
position.  (`$` may also match before a final newline, but `parse_recipients`
only applies the regex to stripped tokens, which end in no newline.) -/
def emailMatch (t : List Char) : Bool :=
  let a := t.takeWhile fun c => c != '@'
  let r := t.dropWhile fun c => c != '@'
  !a.isEmpty && a.all emailChar && !r.isEmpty && (r.drop 1).all emailChar &&
    decide ('.' ∈ ((r.drop 1).drop 1).dropLast)

/-- `parse_recipients` (src/app.py lines 79-85).  The argument is `Option String`
so that an absent (`None`) raw value is representable; `if not raw` is true for
both `None` and the empty string. -/
def parse_recipients : Option String → List String
  | none => []
  | some raw =>
    if raw = "" then []
    else
      let parts := splitRuns recipientDelims raw.toList
      let emails := (parts.map pyStrip).filter fun t => !t.isEmpty
      let valid := emails.filter emailMatch
      valid.map fun t => String.mk t

/-- The shape the spec ascribes to a kept token: one-or-more
non-whitespace-non-`@` characters, `@`, one-or-more such characters, `.`,
one-or-more such characters. -/
def SpecEmailShape (t : List Char) : Prop :=
  ∃ a b c : List Char,
    t = a ++ '@' :: (b ++ '.' :: c) ∧ a ≠ [] ∧ b ≠ [] ∧ c ≠ [] ∧
    ∀ ch ∈ a ++ b ++ c, ch ≠ '@' ∧ pyIsSpace ch = false

/-- Python's `str.splitlines()` restricted to the separators `\n`, `\r\n` and
`\r`: no trailing empty line is produced for a trailing line break. -/
def pySplitlines : List Char → List Char → List (List Char)
  | [], acc => if acc.isEmpty then [] else [acc.reverse]
  | '\r' :: '\n' :: rest, acc => acc.reverse :: pySplitlines rest []
  | '\n' :: rest, acc => acc.reverse :: pySplitlines rest []
  | '\r' :: rest, acc => acc.reverse :: pySplitlines rest []
  | c :: rest, acc => pySplitlines rest (c :: acc)

/-- The marker prefixed to the local fallback summary (src/app.py line 163). -/
def stubMarker : String := "Stub summary (Groq not configured):\n"

/-- The deterministic fallback summary of `generate` when no Groq client is
configured (src/app.py lines 161-163):
`lines = [l.strip() for l in transcript.splitlines() if l.strip()]` followed by
`"Stub summary (Groq not configured):\n" + "\n".join(lines[:10])`. -/
def stub_summary (transcript : String) : String :=
  let lines := ((pySplitlines transcript.toList []).map pyStrip).filter fun l => !l.isEmpty
  stubMarker ++ String.intercalate "\n" ((lines.take 10).map fun l => String.mk l)

/-- SMTP configuration drawn from the environment (src/app.py lines 39-43).
`port` is an `Int`, as Python's `int(...)` is unbounded. -/
structure SmtpConfig where
  host : String
  port : Int
  username : String
  password : String
  emailFrom : String
  deriving DecidableEq

/-- The observable network actions of `send_email_smtp`, in the order the code
performs them. -/
inductive SmtpEvent where
  | connectSSL (host : String) (port : Int)
  | connectPlain (host : String) (port : Int)
  | ehlo
  | starttls
  | login (username password : String)
  | sendMessage
  | quit
  deriving DecidableEq

/-- The `EmailMessage` composed by `send_email_smtp` (src/app.py lines 92-97):
From, To (recipients joined by a comma and a space), Subject, the static plain
part and the HTML alternative. -/
structure EmailMessage where
  fromAddr : String
  toHeader : String
  subject : String
  plainBody : String
  htmlBody : String
  deriving DecidableEq

/-- The message of the `RuntimeError` of src/app.py line 90. -/
def smtpNotConfiguredMsg : String :=
  "SMTP not configured. Set SMTP_HOST, SMTP_USERNAME, SMTP_PASSWORD."

/-- `send_email_smtp` (src/app.py lines 88-112), under the abstraction that the
network itself does not fail: the result is the trace of network actions
performed together with either the configuration error (raised before any
message or connection object is created, hence the empty trace) or the composed
message.  `isinstance(server, smtplib.SMTP_SSL)` holds exactly when the port is
465, which is the branch that constructed `SMTP_SSL`. -/
def send_email_smtp (cfg : SmtpConfig) (subject html_body : String)
    (recipients : List String) : List SmtpEvent × Except String EmailMessage :=
  if cfg.host = "" ∨ cfg.username = "" ∨ cfg.password = "" then
    ([], .error smtpNotConfiguredMsg)
  else
    let msg : EmailMessage :=
      ⟨cfg.emailFrom, String.intercalate ", " recipients, subject,
       "This email contains an HTML summary. View with an HTML-capable mail client.",
       html_body⟩
    let connectEv := if cfg.port = 465 then SmtpEvent.connectSSL cfg.host cfg.port
      else SmtpEvent.connectPlain cfg.host cfg.port
    let tlsEvs := if (cfg.port = 587 ∨ cfg.port = 25) ∧ ¬ cfg.port = 465 then
      [SmtpEvent.starttls, SmtpEvent.ehlo] else []
    (connectEv :: SmtpEvent.ehlo :: tlsEvs ++
       [SmtpEvent.login cfg.username cfg.password, SmtpEvent.sendMessage, SmtpEvent.quit],
     .ok msg)

/-- The outcome of `page.extract_text()` on one PDF page: the call either raises
or returns (possibly `None`, possibly the empty string). -/
inductive PageExtract where
  | raises
  | returns (t : Option String)
  deriving DecidableEq

/-- What the `pdf` branch appends for one page (src/app.py lines 66-69): a
raising page is skipped (`continue`), `page.extract_text() or ""` turns `None`
into the empty string. -/
def pageText : PageExtract → Option String
  | .raises => none
  | .returns t => some (t.getD "")

/-- The content of a file on disk, as seen through each of the three parsers the
extractor may apply to it: the `txt` decoding (UTF-8, errors ignored), the PDF
per-page extraction outcomes, and the docx paragraphs. -/
structure FileModel where
  txtContent : String
  pdfPages : List PageExtract
  docxParas : List String

/-- `filepath.rsplit(".", 1)[1].lower()` (src/app.py line 55): the part after
the last dot, lowercased; `none` models the `IndexError` raised when the path
has no dot, since `rsplit` then yields a single-element list. -/
def extOfPath (filepath : String) : Option String :=
  let cs := filepath.toList
  if '.' ∈ cs then
    some (String.mk (((cs.reverse.takeWhile fun c => c != '.').reverse).map Char.toLower))
  else none

/-- `extract_text_from_file` (src/app.py lines 53-76), parameterized by the
file's content model; opening the saved file is assumed to succeed.  An
`Except.error` models an uncaught exception. -/
def extract_text_from_file (fm : FileModel) (filepath : String) : Except String String :=
  match extOfPath filepath with
  | none => .error "IndexError: list index out of range"
  | some ext =>
    if ext = "txt" then .ok fm.txtContent
    else if ext = "pdf" then
      .ok (String.intercalate "\n" (fm.pdfPages.filterMap pageText))
    else if ext = "docx" then
      .ok (String.intercalate "\n" fm.docxParas)
    else .ok ""

/-- `allowed_file` (src/app.py lines 49-50): the name contains a dot and the
lowercased part after the last dot is in `ALLOWED_EXTENSIONS`. -/
def allowed_file (filename : String) : Bool :=
  match extOfPath filename with
  | some e => e = "txt" || e = "pdf" || e = "docx"
  | none => false

/-- `os.path.join` (POSIX) for the two-argument uses in the app: the second
part wins when it is absolute (begins with a slash). -/
def osPathJoin (a b : String) : String :=
  if b.toList.head? = some '/' then b else a ++ "/" ++ b

/-- The responses the embedded handlers can produce: a JSON body
`{ok, message|error}` with a status code, a redirect carrying a flashed notice,
the rendered `result.html` page, or an uncaught server error. -/
inductive HttpResponse where
  | json (status : Nat) (ok : Bool) (message : String)
  | redirect (endpoint : String) (notice : String)
  | resultPage (summary prompt transcript : String)
  | serverError (message : String)
  deriving DecidableEq

/-- Python's `x or default` for an optional string: `None` and `""` are falsy. -/
def pyOrD (x : Option String) (d : String) : String :=
  match x with
  | none => d
  | some s => if s = "" then d else s

/-- Python's `x or None` for an optional string. -/
def pyOrNone (x : Option String) : Option String :=
  match x with
  | none => none
  | some s => if s = "" then none else some s

/-- The `/send_email` request payload (JSON or form); absent keys are `none`
(`data.get("recipients", "")` supplies `""` for the recipients default, so that
field is a plain `String`). -/
structure SendEmailRequest where
  isJson : Bool
  recipients : String
  subject : Option String
  edited_summary : Option String
  edited_summary_html : Option String
  prompt : Option String
  transcript : Option String

/-- The `/send_email` handler (src/app.py lines 182-223).  The second component
is `none` when `send_email_smtp` was never invoked, and `some trace` with the
trace of the invocation otherwise. -/
def send_email_handler (cfg : SmtpConfig) (req : SendEmailRequest) :
    HttpResponse × Option (List SmtpEvent) :=
  let recipients := parse_recipients (some req.recipients)
  if recipients.isEmpty then
    (if req.isJson then HttpResponse.json 400 false "No valid recipient emails."
     else HttpResponse.redirect "index" "No valid recipient emails.", none)
  else
    let subject := pyOrD req.subject "Meeting Summary"
    let edited_text := pyOrD req.edited_summary ""
    let edited_html := pyOrNone req.edited_summary_html
    let prompt := pyOrD req.prompt ""
    let transcript := pyOrD req.transcript ""
    let body_html := "<pre style=\x27white-space:pre-wrap\x27>" ++
      (match edited_html with | some h => h | none => edited_text) ++ "</pre>"
    let body_html := if prompt ≠ "" then
      "<p><strong>Prompt used:</strong> " ++ prompt ++ "</p>" ++ body_html else body_html
    let body_html := if transcript ≠ "" then
      body_html ++ "<hr/><details><summary>Original Transcript</summary>" ++
        "<pre style=\x27white-space:pre-wrap\x27>" ++ transcript ++ "</pre></details>"
      else body_html
    match send_email_smtp cfg subject body_html recipients with
    | (evs, .error e) =>
      (if req.isJson then HttpResponse.json 500 false ("Failed to send email: " ++ e)
       else HttpResponse.redirect "index" ("Failed to send email: " ++ e), some evs)
    | (evs, .ok _) =>
      let success := "Summary sent to: " ++ String.intercalate ", " recipients
      (if req.isJson then HttpResponse.json 200 true success
       else HttpResponse.redirect "index" success, some evs)

/-- An uploaded file as the `/generate` handler sees it (its saved content is
modelled separately by a `FileModel`). -/
structure UploadedFile where
  filename : String

/-- The `/generate` form payload; `request.form.get(..., "")` supplies empty
defaults, so the text fields are plain `String`s. -/
structure GenerateRequest where
  prompt : String
  file : Option UploadedFile
  transcript_text : String

/-- The observable actions of the `/generate` handler: saving the upload,
running the extractor on it, and calling the Groq chat-completion API. -/
inductive GenEvent where
  | saveFile (path : String)
  | extractFile (path : String)
  | callSummarizer
  deriving DecidableEq

/-- The tail of `generate` from the transcript check on (src/app.py lines
137-165): reject an empty transcript, otherwise summarize — through the API
when a Groq client is configured (`groq = some outcome`, where the outcome is
the API call's result or exception), and through the local stub otherwise. -/
def generate_after_transcript (prompt transcript : String)
    (groq : Option (Except String String)) (events : List GenEvent) :
    HttpResponse × List GenEvent :=
  if transcript = "" then
    (HttpResponse.redirect "index" "Please upload or paste a transcript.", events)
  else
    match groq with
    | some (.error e) =>
      (HttpResponse.redirect "index" ("Error generating summary: " ++ e),
       events ++ [GenEvent.callSummarizer])
    | some (.ok s) =>
      (HttpResponse.resultPage s prompt transcript, events ++ [GenEvent.callSummarizer])
    | none =>
      (HttpResponse.resultPage (stub_summary transcript) prompt transcript, events)

/-- The `/generate` handler (src/app.py lines 120-165), parameterized by
werkzeug's `secure_filename` (`sanitize`), the saved file's content model and
the Groq client state.  The second component is the trace of actions taken. -/
def generate_handler (sanitize : String → String) (fm : FileModel)
    (groq : Option (Except String String)) (req : GenerateRequest) :
    HttpResponse × List GenEvent :=
  let prompt := pyStripS req.prompt
  match req.file with
  | some f =>
    if f.filename ≠ "" then
      let filename := sanitize f.filename
      if ¬ allowed_file filename then
        (HttpResponse.redirect "index" "Only .txt, .pdf, and .docx files are supported.", [])
      else
        let save_path := osPathJoin "uploads" filename
        let events := [GenEvent.saveFile save_path, GenEvent.extractFile save_path]
        match extract_text_from_file fm save_path with
        | .error e => (HttpResponse.serverError e, events)
        | .ok transcript => generate_after_transcript prompt transcript groq events
    else generate_after_transcript prompt (pyStripS req.transcript_text) groq []
  | none => generate_after_transcript prompt (pyStripS req.transcript_text) groq []

/-- The claim's literal reading of the stub summary, for comparison with
`stub_summary`: the non-blank lines of the transcript themselves (NOT stripped),
first 10, joined with newlines after the marker. -/
def stub_summary_claimed (transcript : String) : String :=
  let lines := (pySplitlines transcript.toList []).filter fun l => !(pyStrip l).isEmpty
  stubMarker ++ String.intercalate "\n" ((lines.take 10).map fun l => String.mk l)

/-! ## Helper lemmas -/

/-- The head of a non-empty `dropWhile` result falsifies the predicate. -/
theorem dropWhile_head_false {α} (p : α → Bool) :
    ∀ {l : List α} {x : α} {xs : List α}, l.dropWhile p = x :: xs → p x = false := by
  intro l
  induction l with
  | nil => intro x xs h; simp [List.dropWhile] at h
  | cons c cs ih =>
    intro x xs h
    rw [List.dropWhile_cons] at h
    by_cases hc : p c = true
    · rw [if_pos hc] at h; exact ih h
    · rw [if_neg hc] at h
      cases h
      exact Bool.not_eq_true _ ▸ Bool.eq_false_iff.mpr hc

/-- `takeWhile`/`dropWhile` on a list of the form `a ++ x :: y` where every
element of `a` satisfies the predicate and `x` does not. -/
theorem takeWhile_append_cons {α} {p : α → Bool} :
    ∀ (a : List α) (x : α) (y : List α), (∀ c ∈ a, p c = true) → p x = false →
      (a ++ x :: y).takeWhile p = a ∧ (a ++ x :: y).dropWhile p = x :: y := by
  intro a
  induction a with
  | nil =>
    intro x y _ hx
    constructor
    · rw [List.nil_append, List.takeWhile_cons, if_neg (by simp [hx])]
    · rw [List.nil_append, List.dropWhile_cons, if_neg (by simp [hx])]
  | cons c cs ih =>
    intro x y ha hx
    have hc : p c = true := ha c (by simp)
    obtain ⟨ht, hd⟩ := ih x y (fun d hd => ha d (by simp [hd])) hx
    constructor
    · rw [List.cons_append, List.takeWhile_cons, if_pos hc, ht]
    · rw [List.cons_append, List.dropWhile_cons, if_pos hc, hd]

/-- `dropLast` distributes over an append with a non-empty right part. -/
theorem dropLast_append_ne {α} :
    ∀ (l₁ l₂ : List α), l₂ ≠ [] → (l₁ ++ l₂).dropLast = l₁ ++ l₂.dropLast := by
  intro l₁
  induction l₁ with
  | nil => intro l₂ _; simp
  | cons c cs ih =>
    intro l₂ h
    rcases cs with _ | ⟨d, ds⟩
    · rcases l₂ with _ | ⟨e, es⟩
      · exact absurd rfl h
      · simp [List.dropLast_cons₂]
    · rw [List.cons_append, List.cons_append, List.dropLast_cons₂]
      have := ih l₂ h
      rw [List.cons_append] at this
      rw [this]
      simp

/-- The Boolean `emailChar` unpacked into its two propositional conditions. -/
theorem emailChar_iff (c : Char) :
    emailChar c = true ↔ c ≠ '@' ∧ pyIsSpace c = false := by
  simp [emailChar, bne_iff_ne]

/-- `EMAIL_REGEX` matches a token exactly when the token has the
`local@domain.tld` shape the spec describes. -/
theorem emailMatch_iff_SpecEmailShape (t : List Char) :
    emailMatch t = true ↔ SpecEmailShape t := by
  constructor
  · intro h
    simp only [emailMatch, Bool.and_eq_true, Bool.not_eq_true', List.isEmpty_eq_false,
      List.all_eq_true, decide_eq_true_eq] at h
    obtain ⟨⟨⟨⟨hane, haall⟩, hrne⟩, hrall⟩, hdot⟩ := h
    rcases hr : t.dropWhile (fun c => c != '@') with _ | ⟨x, rest⟩
    · exact absurd hr hrne
    have hx : x = '@' := by
      have := dropWhile_head_false (fun c => c != '@') hr
      simpa [bne_eq_false_iff_eq] using this
    rw [hr] at hrall hdot
    simp only [List.drop_succ_cons, List.drop_zero] at hdot hrall
    rcases hrest : rest with _ | ⟨r0, rt⟩
    · rw [hrest] at hdot; simp at hdot
    rw [hrest] at hdot hrall
    simp only [List.drop_succ_cons, List.drop_zero] at hdot
    obtain ⟨l1, l2, hsplit⟩ := List.append_of_mem hdot
    have hrt : rt ≠ [] := by
      intro hnil
      rw [hnil] at hsplit
      simp at hsplit
    obtain ⟨g, hg⟩ : ∃ g, rt = l1 ++ '.' :: (l2 ++ [g]) := by
      refine ⟨rt.getLast hrt, ?_⟩
      conv_lhs => rw [← List.dropLast_append_getLast hrt]
      rw [hsplit]
      simp
    have hsum := List.takeWhile_append_dropWhile (fun c => c != '@') t
    rw [hr, hrest, hx] at hsum
    refine ⟨t.takeWhile (fun c => c != '@'), r0 :: l1, l2 ++ [g], ?_, hane, by simp,
      by simp, ?_⟩
    · conv_lhs => rw [← hsum, hg]
      simp
    · intro ch hch
      simp only [List.append_assoc, List.mem_append, List.mem_cons] at hch
      rcases hch with hch | hch | hch
      · exact (emailChar_iff ch).mp (haall ch hch)
      · refine (emailChar_iff ch).mp (hrall ch ?_)
        rcases hch with hch | hch
        · simp [hch]
        · have hm : ch ∈ rt := by rw [hg]; simp [hch]
          simp [hm]
      · refine (emailChar_iff ch).mp (hrall ch ?_)
        have hm : ch ∈ rt := by
          rw [hg]
          simp only [List.mem_append, List.mem_cons, List.mem_singleton] at hch ⊢
          tauto
        simp [hm]
  · rintro ⟨a, b, c, hteq, hane, hbne, hcne, hch⟩
    have hchar : ∀ ch ∈ a ++ b ++ c, emailChar ch = true := fun ch hmem =>
      (emailChar_iff ch).mpr (hch ch hmem)
    have haall : ∀ ch ∈ a, emailChar ch = true := fun ch hm => hchar ch (by simp [hm])
    have hpa : ∀ ch ∈ a, (fun c => c != '@') ch = true := by
      intro ch hm
      have := haall ch hm
      simp only [emailChar, Bool.and_eq_true] at this
      exact this.1
    obtain ⟨htake, hdrop⟩ := takeWhile_append_cons a '@' (b ++ '.' :: c) hpa (by simp)
    rcases b with _ | ⟨b0, bt⟩
    · exact absurd rfl hbne
    rcases c with _ | ⟨c0, ct⟩
    · exact absurd rfl hcne
    have hball : ∀ ch ∈ (b0 :: bt) ++ '.' :: (c0 :: ct), emailChar ch = true := by
      intro ch hm
      rcases List.mem_append.mp hm with hm | hm
      · exact hchar ch (List.mem_append.mpr (Or.inl (List.mem_append.mpr (Or.inr hm))))
      · rcases List.mem_cons.mp hm with hm | hm
        · rw [hm]; decide
        · exact hchar ch (List.mem_append.mpr (Or.inr hm))
    have hdot : '.' ∈ (bt ++ '.' :: (c0 :: ct)).dropLast := by
      rw [dropLast_append_ne bt ('.' :: (c0 :: ct)) (by simp), List.dropLast_cons₂]
      simp
    subst hteq
    simp only [emailMatch, htake, hdrop, Bool.and_eq_true]
    refine ⟨⟨⟨⟨?_, ?_⟩, ?_⟩, ?_⟩, ?_⟩
    · simp [Bool.not_eq_true', List.isEmpty_eq_false, hane]
    · rw [List.all_eq_true]; exact haall
    · rfl
    · simp only [List.drop_succ_cons, List.drop_zero, List.all_eq_true]
      exact hball
    · simp only [List.drop_succ_cons, List.drop_zero, List.cons_append,
        decide_eq_true_eq]
      exact hdot

/-- Mapping `String.mk ∘ pyStrip` over a line list and keeping the non-empty
results, written as one `filterMap`. -/
theorem filterMap_strip_eq (xs : List (List Char)) :
    (xs.filterMap fun l =>
        if (pyStrip l).isEmpty then none else some (String.mk (pyStrip l))) =
      ((xs.map pyStrip).filter fun l => !l.isEmpty).map fun l => String.mk l := by
  induction xs with
  | nil => rfl
  | cons x xs ih =>
    simp only [List.isEmpty_iff] at ih
    by_cases h : pyStrip x = []
    · simp [List.filterMap_cons, h, ih]
    · simp [List.filterMap_cons, h, ih]

/-! ## Claims -/

/-- C1: `parse_recipients` returns `[]` on absent (`None`) or empty input;
otherwise it splits the input on runs of comma, semicolon, newline or
carriage-return characters, trims whitespace from each token, discards empty
tokens, keeps exactly the tokens matching the `local@domain.tld`-shaped pattern
of `EMAIL_REGEX` (one-or-more non-whitespace-non-`@` characters, `@`, one-or-more
such characters, `.`, one-or-more such characters), in order of first appearance
without deduplication; on the spec's example it yields
`["a@b.com", "c@d.com", "e@f.co"]`. -/
theorem C1_parse_recipients_contract :
    parse_recipients none = [] ∧
    parse_recipients (some "") = [] ∧
    (∀ raw : String, parse_recipients (some raw) =
      ((((splitRuns recipientDelims raw.toList).map pyStrip).filter
          fun t => !t.isEmpty).filter emailMatch).map fun t => String.mk t) ∧
    (∀ t : List Char, emailMatch t = true ↔ SpecEmailShape t) ∧
    parse_recipients (some "a@b.com, c@d.com; bad-email\ne@f.co") =
      ["a@b.com", "c@d.com", "e@f.co"] := by
  refine ⟨rfl, rfl, ?_, emailMatch_iff_SpecEmailShape, by decide⟩
  intro raw
  by_cases h : raw = ""
  · subst h; decide
  · simp [parse_recipients, h]

/-- C2 counterexample: the stub summary contains each non-blank line stripped of
its surrounding whitespace, not the line of the transcript itself, so the claim
as stated fails at the transcript `" line1"`: the code yields the line `line1`
where the claim requires the line `" line1"`. -/
theorem C2_stub_lines_stripped_counterexample :
    stub_summary " line1" = "Stub summary (Groq not configured):\nline1" ∧
    stub_summary_claimed " line1" = "Stub summary (Groq not configured):\n line1" ∧
    stub_summary " line1" ≠ stub_summary_claimed " line1" := by
  refine ⟨by decide, by decide, by decide⟩

/-- C2 (amended): with no Groq client configured, the summary is deterministic:
the non-blank lines of the transcript, each trimmed of surrounding whitespace,
in original order, truncated to the first 10, joined with newlines and prefixed
with the stub marker; on `"line1\n\nline2\nline3"` the lines after the marker
are exactly `line1`, `line2`, `line3`. -/
theorem C2_stub_fallback (instruction transcript : String) (events : List GenEvent) :
    (generate_after_transcript instruction transcript none events).1 =
      (if transcript = "" then
        HttpResponse.redirect "index" "Please upload or paste a transcript."
       else HttpResponse.resultPage (stub_summary transcript) instruction transcript) ∧
    stub_summary transcript =
      stubMarker ++ String.intercalate "\n"
        (((pySplitlines transcript.toList []).filterMap fun l =>
            if (pyStrip l).isEmpty then none else some (String.mk (pyStrip l))).take 10) ∧
    stub_summary "line1\n\nline2\nline3" =
      "Stub summary (Groq not configured):\nline1\nline2\nline3" := by
  refine ⟨?_, ?_, by decide⟩
  · by_cases h : transcript = "" <;> simp [generate_after_transcript, h]
  · simp only [stub_summary, filterMap_strip_eq, List.map_take]

/-- C3: `send_email_smtp` fails immediately with the configuration error, with
no network action performed, whenever the SMTP host, username or password is
empty. -/
theorem C3_smtp_unconfigured (cfg : SmtpConfig) (subject html_body : String)
    (recipients : List String)
    (h : cfg.host = "" ∨ cfg.username = "" ∨ cfg.password = "") :
    send_email_smtp cfg subject html_body recipients =
      ([], .error smtpNotConfiguredMsg) := by
  simp only [send_email_smtp, if_pos h]

/-- Witness for C3 at a concrete unconfigured setup. -/
theorem C3_smtp_unconfigured_witness :
    (("" : String) = "" ∨ ("user" : String) = "" ∨ ("pw" : String) = "") ∧
    send_email_smtp ⟨"", 587, "user", "pw", "from@x.y"⟩ "Subject" "<p>b</p>" ["a@b.c"] =
      ([], .error smtpNotConfiguredMsg) :=
  ⟨Or.inl rfl,
   C3_smtp_unconfigured ⟨"", 587, "user", "pw", "from@x.y"⟩ "Subject" "<p>b</p>" ["a@b.c"]
     (Or.inl rfl)⟩

/-- C4 counterexample: on a filepath with no dot at all,
`extract_text_from_file` raises an `IndexError` (from `rsplit(".", 1)[1]`)
rather than returning the empty string, so the claim's "regardless of whether it
contains a dot" part fails. -/
theorem C4_no_dot_raises :
    extract_text_from_file ⟨"", [], []⟩ "noext" =
      .error "IndexError: list index out of range" ∧
    ∀ s : String, extract_text_from_file ⟨"", [], []⟩ "noext" ≠ .ok s := by
  constructor
  · decide
  · intro s h
    rw [show extract_text_from_file ⟨"", [], []⟩ "noext" =
      .error "IndexError: list index out of range" from by decide] at h
    exact Except.noConfusion h

/-- C4 (amended): for every filepath that does contain a dot and whose
lowercased extension is not `txt`, `pdf` or `docx`, `extract_text_from_file`
returns the empty string without raising. -/
theorem C4_unsupported_extension (fm : FileModel) (p ext : String)
    (hdot : extOfPath p = some ext)
    (h1 : ext ≠ "txt") (h2 : ext ≠ "pdf") (h3 : ext ≠ "docx") :
    extract_text_from_file fm p = .ok "" := by
  simp [extract_text_from_file, hdot, h1, h2, h3]

/-- Witness for the amended C4 at `"file.exe"`. -/
theorem C4_unsupported_extension_witness :
    extOfPath "file.exe" = some "exe" ∧
    extract_text_from_file ⟨"t", [], []⟩ "file.exe" = .ok "" :=
  ⟨by decide,
   C4_unsupported_extension ⟨"t", [], []⟩ "file.exe" "exe" (by decide) (by decide)
     (by decide) (by decide)⟩

/-- C5: for a PDF in which one page fails extraction, no exception escapes: the
failing page is skipped and the surviving pages' texts are joined by newlines in
original order. -/
theorem C5_pdf_skips_failing_pages (fm : FileModel) (p : String)
    (pre post : List PageExtract)
    (hext : extOfPath p = some "pdf")
    (hpages : fm.pdfPages = pre ++ PageExtract.raises :: post) :
    extract_text_from_file fm p =
      .ok (String.intercalate "\n"
        (pre.filterMap pageText ++ post.filterMap pageText)) := by
  simp [extract_text_from_file, hext, hpages, List.filterMap_append,
    List.filterMap_cons, pageText]

/-- Witness for C5: a three-page PDF whose middle page raises. -/
theorem C5_pdf_skips_failing_pages_witness :
    extOfPath "meeting.pdf" = some "pdf" ∧
    extract_text_from_file
        ⟨"", [PageExtract.returns (some "p1"), PageExtract.raises,
              PageExtract.returns (some "p3")], []⟩ "meeting.pdf" =
      .ok (String.intercalate "\n"
        ([PageExtract.returns (some "p1")].filterMap pageText ++
         [PageExtract.returns (some "p3")].filterMap pageText)) :=
  ⟨by decide,
   C5_pdf_skips_failing_pages
     ⟨"", [PageExtract.returns (some "p1"), PageExtract.raises,
           PageExtract.returns (some "p3")], []⟩ "meeting.pdf"
     [PageExtract.returns (some "p1")] [PageExtract.returns (some "p3")]
     (by decide) rfl⟩

/-- The tail of `generate` only ever appends events to those already recorded. -/
theorem generate_after_transcript_events (prompt transcript : String)
    (groq : Option (Except String String)) (events : List GenEvent) :
    ∃ tail, (generate_after_transcript prompt transcript groq events).2 =
      events ++ tail := by
  unfold generate_after_transcript
  by_cases h : transcript = ""
  · exact ⟨[], by simp [h]⟩
  · rcases groq with _ | r
    · exact ⟨[], by simp [h]⟩
    · rcases r with e | s
      · exact ⟨[GenEvent.callSummarizer], by simp [h]⟩
      · exact ⟨[GenEvent.callSummarizer], by simp [h]⟩

/-- C6: when the recipients field parses to no valid address, `/send_email`
answers HTTP 400 with `{ok: false, error: "No valid recipient emails."}` for a
JSON request (a redirect with the notice for a form request) and never invokes
the mail sender; conversely, the mail sender is invoked only when at least one
recipient passed the filter. -/
theorem C6_send_email_no_valid_recipients (cfg : SmtpConfig) (req : SendEmailRequest) :
    (parse_recipients (some req.recipients) = [] →
      send_email_handler cfg req =
        ((if req.isJson then HttpResponse.json 400 false "No valid recipient emails."
          else HttpResponse.redirect "index" "No valid recipient emails."), none)) ∧
    ((send_email_handler cfg req).2.isSome →
      parse_recipients (some req.recipients) ≠ []) := by
  have key : parse_recipients (some req.recipients) = [] →
      send_email_handler cfg req =
        ((if req.isJson then HttpResponse.json 400 false "No valid recipient emails."
          else HttpResponse.redirect "index" "No valid recipient emails."), none) := by
    intro h
    simp [send_email_handler, h]
  refine ⟨key, ?_⟩
  intro hs h
  rw [key h] at hs
  simp at hs

/-- Witness for C6: a JSON request whose recipients field holds no valid
address. -/
theorem C6_send_email_no_valid_recipients_witness :
    parse_recipients (some "not-an-email") = [] ∧
    send_email_handler ⟨"h", 587, "u", "p", "f@x.y"⟩
        ⟨true, "not-an-email", none, none, none, none, none⟩ =
      (HttpResponse.json 400 false "No valid recipient emails.", none) := by
  refine ⟨by decide, ?_⟩
  have h := (C6_send_email_no_valid_recipients ⟨"h", 587, "u", "p", "f@x.y"⟩
    ⟨true, "not-an-email", none, none, none, none, none⟩).1 (by decide)
  simpa using h

/-- C7: the connection strategy of `send_email_smtp` depends only on the port:
465 gives an implicit-TLS connection; any other port gives a plain connection,
upgraded via STARTTLS (followed by a second EHLO, before authentication) exactly
when the port is 587 or 25. -/
theorem C7_connection_strategy (cfg : SmtpConfig) (subject html_body : String)
    (recipients : List String)
    (h1 : cfg.host ≠ "") (h2 : cfg.username ≠ "") (h3 : cfg.password ≠ "") :
    (cfg.port = 465 →
      (send_email_smtp cfg subject html_body recipients).1 =
        [SmtpEvent.connectSSL cfg.host cfg.port, SmtpEvent.ehlo,
         SmtpEvent.login cfg.username cfg.password, SmtpEvent.sendMessage,
         SmtpEvent.quit]) ∧
    (cfg.port ≠ 465 →
      (send_email_smtp cfg subject html_body recipients).1 =
        SmtpEvent.connectPlain cfg.host cfg.port :: SmtpEvent.ehlo ::
          ((if cfg.port = 587 ∨ cfg.port = 25 then
              [SmtpEvent.starttls, SmtpEvent.ehlo] else []) ++
           [SmtpEvent.login cfg.username cfg.password, SmtpEvent.sendMessage,
            SmtpEvent.quit])) ∧
    (SmtpEvent.starttls ∈ (send_email_smtp cfg subject html_body recipients).1 ↔
      cfg.port = 587 ∨ cfg.port = 25) := by
  have hcfg : ¬(cfg.host = "" ∨ cfg.username = "" ∨ cfg.password = "") := by
    tauto
  refine ⟨?_, ?_, ?_⟩
  · intro h465
    simp [send_email_smtp, hcfg, h465]
  · intro h465
    by_cases hp : cfg.port = 587 ∨ cfg.port = 25
    · simp [send_email_smtp, hcfg, h465, hp]
    · simp [send_email_smtp, hcfg, h465, hp]
  · by_cases h465 : cfg.port = 465
    · have : ¬(cfg.port = 587 ∨ cfg.port = 25) := by omega
      simp [send_email_smtp, hcfg, h465, this]
    · by_cases hp : cfg.port = 587 ∨ cfg.port = 25
      · simp [send_email_smtp, hcfg, h465, hp]
      · simp [send_email_smtp, hcfg, h465, hp]

/-- Witness for C7 at port 587 of a configured server. -/
theorem C7_connection_strategy_witness :
    ("smtp.example.com" : String) ≠ "" ∧
    (((587 : Int) = 465 →
      (send_email_smtp ⟨"smtp.example.com", 587, "u", "p", "f@x.y"⟩ "S" "B" ["a@b.c"]).1 =
        [SmtpEvent.connectSSL "smtp.example.com" 587, SmtpEvent.ehlo,
         SmtpEvent.login "u" "p", SmtpEvent.sendMessage, SmtpEvent.quit]) ∧
     ((587 : Int) ≠ 465 →
      (send_email_smtp ⟨"smtp.example.com", 587, "u", "p", "f@x.y"⟩ "S" "B" ["a@b.c"]).1 =
        SmtpEvent.connectPlain "smtp.example.com" 587 :: SmtpEvent.ehlo ::
          ((if (587 : Int) = 587 ∨ (587 : Int) = 25 then
              [SmtpEvent.starttls, SmtpEvent.ehlo] else []) ++
           [SmtpEvent.login "u" "p", SmtpEvent.sendMessage, SmtpEvent.quit])) ∧
     (SmtpEvent.starttls ∈
        (send_email_smtp ⟨"smtp.example.com", 587, "u", "p", "f@x.y"⟩ "S" "B" ["a@b.c"]).1 ↔
      (587 : Int) = 587 ∨ (587 : Int) = 25)) :=
  ⟨by decide,
   C7_connection_strategy ⟨"smtp.example.com", 587, "u", "p", "f@x.y"⟩ "S" "B" ["a@b.c"]
     (by decide) (by decide) (by decide)⟩

/-- C8: in `/generate`, an uploaded file is saved and parsed exactly when its
sanitized filename has an allowed extension; with a disallowed extension the
request is redirected with the notice and no save or extraction happens. -/
theorem C8_upload_extension_gating (sanitize : String → String) (fm : FileModel)
    (groq : Option (Except String String)) (req : GenerateRequest) (f : UploadedFile)
    (hfile : req.file = some f) (hname : f.filename ≠ "") :
    (allowed_file (sanitize f.filename) = false →
      generate_handler sanitize fm groq req =
        (HttpResponse.redirect "index" "Only .txt, .pdf, and .docx files are supported.",
         [])) ∧
    (allowed_file (sanitize f.filename) = true →
      ∃ tail, (generate_handler sanitize fm groq req).2 =
        GenEvent.saveFile (osPathJoin "uploads" (sanitize f.filename)) ::
        GenEvent.extractFile (osPathJoin "uploads" (sanitize f.filename)) :: tail) := by
  constructor
  · intro h
    simp [generate_handler, hfile, hname, h]
  · intro h
    rcases hres : extract_text_from_file fm (osPathJoin "uploads" (sanitize f.filename))
      with e | t
    · refine ⟨[], ?_⟩
      simp [generate_handler, hfile, hname, h, hres]
    · obtain ⟨tail, htail⟩ := generate_after_transcript_events (pyStripS req.prompt) t groq
        [GenEvent.saveFile (osPathJoin "uploads" (sanitize f.filename)),
         GenEvent.extractFile (osPathJoin "uploads" (sanitize f.filename))]
      refine ⟨tail, ?_⟩
      simp only [generate_handler, hfile, hname, h, hres]
      simp [generate_handler, hfile, hname, h, hres, htail]

/-- Witness for C8: a disallowed upload (`notes.exe`) is rejected with no file
event; sanitization is the identity here. -/
theorem C8_upload_extension_gating_witness :
    (some (UploadedFile.mk "notes.exe") = some (UploadedFile.mk "notes.exe")) ∧
    ("notes.exe" : String) ≠ "" ∧
    allowed_file "notes.exe" = false ∧
    generate_handler (fun s => s) ⟨"", [], []⟩ none ⟨"", some ⟨"notes.exe"⟩, ""⟩ =
      (HttpResponse.redirect "index" "Only .txt, .pdf, and .docx files are supported.",
       []) := by
  refine ⟨rfl, by decide, by decide, ?_⟩
  exact (C8_upload_extension_gating (fun s => s) ⟨"", [], []⟩ none
    ⟨"", some ⟨"notes.exe"⟩, ""⟩ ⟨"notes.exe"⟩ rfl (by decide)).1 (by decide)

/-- C9: `/generate` with neither an uploaded file (present with a non-empty
filename) nor non-empty pasted text (after trimming) redirects to the input page
with the "please upload or paste" notice, and no save, extraction or
summarization action is taken. -/
theorem C9_generate_missing_input (sanitize : String → String) (fm : FileModel)
    (groq : Option (Except String String)) (req : GenerateRequest)
    (hfile : req.file = none ∨ ∃ f, req.file = some f ∧ f.filename = "")
    (htext : pyStripS req.transcript_text = "") :
    generate_handler sanitize fm groq req =
      (HttpResponse.redirect "index" "Please upload or paste a transcript.", []) := by
  rcases hfile with h | ⟨f, hf, hnm⟩
  · simp [generate_handler, h, generate_after_transcript, htext]
  · simp [generate_handler, hf, hnm, generate_after_transcript, htext]

/-- Witness for C9: no file and whitespace-only pasted text. -/
theorem C9_generate_missing_input_witness :
    pyStripS "   " = "" ∧
    generate_handler (fun s => s) ⟨"", [], []⟩ none ⟨"summarize", none, "   "⟩ =
      (HttpResponse.redirect "index" "Please upload or paste a transcript.", []) :=
  ⟨by decide,
   C9_generate_missing_input (fun s => s) ⟨"", [], []⟩ none ⟨"summarize", none, "   "⟩
     (Or.inl rfl) (by decide)⟩

/-- C10 (implicit): when an uploaded file with a non-empty filename is present,
the pasted `transcript_text` field is never consulted — the handler's result is
independent of it — and an allowed file whose extraction yields empty text leads
to the missing-transcript redirect even if pasted text was supplied. -/
theorem C10_file_overrides_pasted_text (sanitize : String → String) (fm : FileModel)
    (groq : Option (Except String String)) (prompt tt tt2 : String) (f : UploadedFile)
    (hname : f.filename ≠ "") :
    (generate_handler sanitize fm groq ⟨prompt, some f, tt⟩ =
      generate_handler sanitize fm groq ⟨prompt, some f, tt2⟩) ∧
    (allowed_file (sanitize f.filename) = true →
     extract_text_from_file fm (osPathJoin "uploads" (sanitize f.filename)) = .ok "" →
      (generate_handler sanitize fm groq ⟨prompt, some f, tt⟩).1 =
        HttpResponse.redirect "index" "Please upload or paste a transcript.") := by
  constructor
  · simp [generate_handler, hname]
  · intro hall hext
    simp [generate_handler, hname, hall, hext, generate_after_transcript]

/-- Witness for C10: an allowed `txt` upload whose saved content is empty wins
over non-empty pasted text. -/
theorem C10_file_overrides_pasted_text_witness :
    ("notes.txt" : String) ≠ "" ∧
    allowed_file "notes.txt" = true ∧
    extract_text_from_file ⟨"", [], []⟩ (osPathJoin "uploads" "notes.txt") = .ok "" ∧
    (generate_handler (fun s => s) ⟨"", [], []⟩ none
        ⟨"p", some ⟨"notes.txt"⟩, "pasted text"⟩).1 =
      HttpResponse.redirect "index" "Please upload or paste a transcript." := by
  refine ⟨by decide, by decide, by decide, ?_⟩
  exact (C10_file_overrides_pasted_text (fun s => s) ⟨"", [], []⟩ none
    "p" "pasted text" "" ⟨"notes.txt"⟩ (by decide)).2 (by decide) (by decide)

end MeetingApp
